import Mathlib

/-!
Verification of `tasks/split_pdfs.py` (cap-static-tools).

Shallow embedding: the Python functions `get_volumes_to_process`,
`get_cases_metadata`, `process_volume`, `download_pdf`, `split_pdf` and
`upload_case_pdfs` are translated into Lean definitions.  Pure data
transformations become Lean functions; the effectful parts (S3 reads and
writes, temporary files, prints) are made explicit: the outcome of each
external call is an input (`Except`/`Fetch` values, a per-key upload
outcome function) and the side effects performed are returned as an
ordered trace of `Event`s.  A PDF document is modelled as the list of its
pages (`List α`); a produced case PDF is the list of pages written to its
temporary file.  Python `int` is `Int`; Python sequence indexing
(including its negative-index and IndexError behaviour, as implemented by
pypdf's page list) is `getPage`; Python `range` is `pyRange`; an uncaught
Python exception is an `Except.error` result.
-/

/-- The `provenance` sub-object of one case-metadata record. -/
structure Provenance where
  source : String
deriving DecidableEq, Repr

/-- One record of a volume's `CasesMetadata.json`: output file name,
1-based inclusive first/last page ordinals, provenance tag. -/
structure CaseRecord where
  file_name : String
  first_page_order : Int
  last_page_order : Int
  provenance : Provenance
deriving DecidableEq, Repr

/-- One record of the volumes catalog (also used to identify a volume):
reporter slug, volume folder, optional publication year. -/
structure Volume where
  reporter_slug : String
  volume_folder : String
  publication_year : Option Int
deriving DecidableEq, Repr

/-- Python truthiness of an optional string argument (`None` and `""` are
falsy, any other string is truthy). -/
def pyTruthy : Option String → Bool
  | none => false
  | some s => !s.isEmpty

/-- Python `s.endswith(post)`: `post` is a suffix of `s` (stated on the
character sequences of the two strings). -/
def pyEndsWith (s post : String) : Bool :=
  post.data.isSuffixOf s.data

/-- Python sequence index normalisation: a negative index counts from the
end (`i + len`). -/
def pyIndex (n : Nat) (i : Int) : Int :=
  if i < 0 then i + (n : Int) else i

/-- Python `range(start, stop)` over machine integers: the integers from
`start` (inclusive) to `stop` (exclusive), empty when `stop ≤ start`. -/
def pyRange (start stop : Int) : List Int :=
  (List.range (stop - start).toNat).map (fun (k : Nat) => start + (k : Int))

/-- Indexing into the source document's page sequence,
`reader.pages[page_num]` in `split_pdf`: pypdf's page list implements
Python sequence semantics — a negative index counts from the end, and an
index that is still out of bounds after normalisation raises
`IndexError`. -/
def getPage (pages : List α) (i : Int) : Except String α :=
  if 0 ≤ pyIndex pages.length i then
    match pages.get? (pyIndex pages.length i).toNat with
    | some p => Except.ok p
    | none => Except.error "sequence index out of range"
  else
    Except.error "sequence index out of range"

/-- Sequential effectful map in the `Except` monad, stopping at the first
error: the semantics of a Python `for` loop whose body may raise. -/
def mapE (f : β → Except String γ) : List β → Except String (List γ)
  | [] => Except.ok []
  | x :: xs =>
    match f x with
    | Except.error e => Except.error e
    | Except.ok y =>
      match mapE f xs with
      | Except.error e => Except.error e
      | Except.ok ys => Except.ok (y :: ys)

/-- The inner page loop of `split_pdf` for one case: collect
`reader.pages[page_num]` for `page_num in range(first_page_order - 1,
last_page_order)`.  An out-of-range index raises (propagates as
`Except.error`). -/
def buildDoc (pages : List α) (c : CaseRecord) : Except String (List α) :=
  mapE (getPage pages) (pyRange (c.first_page_order - 1) c.last_page_order)

/-- Model of `split_pdf(pdf_path, cases_metadata)`: for each record whose
`provenance.source != "Fastcase"`, in input order, build the document of
its page range and record `(file_name, written document)`; records with
the Fastcase tag are skipped.  Any `IndexError` from the page loop aborts
the whole call (uncaught in the source). -/
def split_pdf (pages : List α) : List CaseRecord → Except String (List (String × List α))
  | [] => Except.ok []
  | c :: rest =>
    if c.provenance.source != "Fastcase" then
      match buildDoc pages c with
      | Except.error e => Except.error e
      | Except.ok doc =>
        match split_pdf pages rest with
        | Except.error e => Except.error e
        | Except.ok others => Except.ok ((c.file_name, doc) :: others)
    else
      split_pdf pages rest

/-- Formalisation of the spec's description of one case's output document
(spec §4.3): the source pages with 0-based indices from
`first_page_order - 1` up to but excluding `last_page_order`, in original
order.  Stated independently of the code, for comparison with
`split_pdf`. -/
def specPagesSlice (pages : List α) (c : CaseRecord) : List α :=
  (pages.drop (c.first_page_order - 1).toNat).take
    (c.last_page_order - (c.first_page_order - 1)).toNat

/-! ## Key shapes and log messages (the source's f-strings) -/

/-- Bucket name constant. Modelled from the spec: `R2_SPLIT_PDFS_BUCKET` is
imported from `tasks/helpers.py`, which is not among the sources; the spec
calls it only "the write-side store", so its concrete value is opaque and
irrelevant to every claim. -/
def WRITE_BUCKET : String := "WRITE_BUCKET"

/-- Key of the packed per-volume archive, `{reporter_slug}/{volume_folder}.zip`. -/
def zipKey (vol : Volume) : String :=
  vol.reporter_slug ++ "/" ++ vol.volume_folder ++ ".zip"

/-- Key of the unpacked metadata object,
`{reporter_slug}/{volume_folder}/CasesMetadata.json`. -/
def unzippedKey (vol : Volume) : String :=
  vol.reporter_slug ++ "/" ++ vol.volume_folder ++ "/CasesMetadata.json"

/-- Key of the volume's source PDF, `{reporter_slug}/{volume_folder}.pdf`. -/
def pdfKey (vol : Volume) : String :=
  vol.reporter_slug ++ "/" ++ vol.volume_folder ++ ".pdf"

/-- Destination key of one produced case PDF,
`{reporter_slug}/{volume_folder}/case-pdfs/{case_name}.pdf`. -/
def destKey (vol : Volume) (case_name : String) : String :=
  vol.reporter_slug ++ "/" ++ vol.volume_folder ++ "/case-pdfs/" ++ case_name ++ ".pdf"

/-- Skip message printed when the metadata is missing (or empty). -/
def skipMissingMsg (vol : Volume) : String :=
  "Skipping volume " ++ vol.volume_folder ++ " due to missing metadata"

/-- Skip message printed when every case carries the Fastcase tag. -/
def skipFastcaseMsg (vol : Volume) : String :=
  "Skipping all-Fastcase volume " ++ vol.volume_folder

/-- Count message printed after a successful split. -/
def splitCountMsg (n : Nat) : String :=
  "Split " ++ toString n ++ " case PDFs"

/-- Status message returned on success. -/
def processedMsg (vol : Volume) (n : Nat) : String :=
  "Processed " ++ toString n ++ " cases for volume " ++ vol.volume_folder

/-- Error message printed inside `process_volume`'s `except` block. -/
def procErrPrint (vol : Volume) (e : String) : String :=
  "Error processing volume " ++ vol.volume_folder ++ " of " ++ vol.reporter_slug
    ++ ": " ++ e

/-- Error status message returned by `process_volume`'s `except` block. -/
def procErrMsg (vol : Volume) (e : String) : String :=
  "Error processing volume " ++ vol.volume_folder ++ ": " ++ e

/-- Error message printed by `download_pdf` before re-raising. -/
def downloadErrMsg (vol : Volume) (e : String) : String :=
  "Error downloading PDF for volume " ++ vol.volume_folder ++ " of "
    ++ vol.reporter_slug ++ ": " ++ e

/-- Message printed after a successful per-case upload. -/
def uploadedMsg (vol : Volume) (case_name : String) : String :=
  "Uploaded " ++ destKey vol case_name ++ " to " ++ WRITE_BUCKET

/-- Message printed when one case upload fails. -/
def uploadErrMsg (vol : Volume) (case_name : String) (e : String) : String :=
  "Error uploading case PDF " ++ case_name ++ " for volume " ++ vol.volume_folder
    ++ " of " ++ vol.reporter_slug ++ ": " ++ e

/-! ## Side-effect traces -/

/-- One observable side effect of a volume-processing run.  `π` is the
type standing for the content identity of a per-case temporary file. -/
inductive Event (π : Type) where
  | log (msg : String)
  | createTemp
  | download (key : String) (ok : Bool)
  | unlinkTemp
  | write (key : String) (ok : Bool)
  | unlink (path : π)
deriving DecidableEq, Repr

/-- Whether an `Except` result is an uncaught exception. -/
def exIsError : Except ε γ → Bool
  | Except.error _ => true
  | Except.ok _ => false

/-! ## download_pdf / upload_case_pdfs / process_volume -/

/-- Model of `download_pdf(volume, local_path, s3_client)`: attempt the
`download_file` call on key `{reporter_slug}/{volume_folder}.pdf`.  `dl`
is the outcome of that external call (`ok` carries the downloaded pages).
On failure the source prints an error message and re-raises.  Returns the
trace of effects together with the (re-raised or successful) result. -/
def download_pdf (vol : Volume) (dl : Except String β) :
    List (Event π) × Except String β :=
  match dl with
  | Except.ok b => ([Event.download (pdfKey vol) true], Except.ok b)
  | Except.error e =>
      ([Event.download (pdfKey vol) false, Event.log (downloadErrMsg vol e)],
        Except.error e)

/-- Model of `upload_case_pdfs(case_pdfs, volume, s3_client)`: for each
`(case_name, temp_path)` pair, in order, attempt the store write to
`{reporter_slug}/{volume_folder}/case-pdfs/{case_name}.pdf` (outcome given
by `upRes`, keyed on the destination key), print the success or error
message (a per-item failure is caught), and in the `finally` block unlink
that item's temporary file before moving to the next item. -/
def upload_case_pdfs (upRes : String → Except String Unit) (vol : Volume) :
    List (String × π) → List (Event π)
  | [] => []
  | (case_name, case_path) :: rest =>
    (match upRes (destKey vol case_name) with
      | Except.ok _ =>
          [Event.write (destKey vol case_name) true,
            Event.log (uploadedMsg vol case_name)]
      | Except.error e =>
          [Event.write (destKey vol case_name) false,
            Event.log (uploadErrMsg vol case_name e)])
      ++ Event.unlink case_path :: upload_case_pdfs upRes vol rest

/-- Model of `process_volume(volume, s3_client)`, given the already-resolved case
metadata `md` (the result of `get_cases_metadata`, `none` for absent), the
outcome `dl` of the source-PDF download, and the per-key upload outcomes
`upRes`.  Mirrors the source exactly: missing or empty (falsy) metadata →
skip; all-Fastcase → skip; otherwise create a temporary file (`delete=False`)
and download into it — the download sits outside the `try`, so a download
failure propagates (`Except.error`) and the `finally` that unlinks the
temporary file is never entered; then split inside `try`/`except`/`finally`:
a split failure is converted to an error-status return, the temporary file
is unlinked in both cases, and produced case PDFs are uploaded when there
are any. -/
def process_volume (vol : Volume) (md : Option (List CaseRecord))
    (dl : Except String (List α)) (upRes : String → Except String Unit) :
    List (Event (List α)) × Except String (Option String) :=
  match md with
  | none => ([Event.log (skipMissingMsg vol)], Except.ok none)
  | some cases =>
    if cases.isEmpty then
      ([Event.log (skipMissingMsg vol)], Except.ok none)
    else if !(cases.all (fun c => c.provenance.source == "Fastcase")) then
      match download_pdf vol dl with
      | (ev, Except.error e) => (Event.createTemp :: ev, Except.error e)
      | (ev, Except.ok pages) =>
        match split_pdf pages cases with
        | Except.error e =>
            (Event.createTemp :: ev
                ++ [Event.log (procErrPrint vol e), Event.unlinkTemp],
              Except.ok (some (procErrMsg vol e)))
        | Except.ok case_pdfs =>
            (Event.createTemp :: ev
                ++ Event.log (splitCountMsg case_pdfs.length)
                  :: (if case_pdfs.length != 0 then
                        upload_case_pdfs upRes vol case_pdfs
                      else [])
                ++ [Event.unlinkTemp],
              Except.ok (some (processedMsg vol case_pdfs.length)))
    else
      ([Event.log (skipFastcaseMsg vol)], Except.ok none)

/-! ## get_cases_metadata -/

/-- Outcome of an `s3_client.get_object` call: the key does not exist
(`NoSuchKey`), some other storage error was raised, or a body was
returned. -/
inductive Fetch (β : Type) where
  | noSuchKey
  | err
  | ok (body : β)
deriving DecidableEq, Repr

/-- One entry of the packed zip archive: its name and the result of
parsing it as case metadata (`none` when `json.load` would raise). -/
structure ZipEntry where
  name : String
  parse : Option (List CaseRecord)
deriving DecidableEq, Repr

/-- The storage contents relevant to `get_cases_metadata` for one volume:
the outcome of fetching the packed key (`ok (some entries)` = a readable
zip with its entries in archive order, `ok none` = a body on which
`zipfile.ZipFile` raises) and the outcome of fetching the unpacked key
(`ok` carries the `json.loads` result, `none` when parsing raises). -/
structure S3Env where
  packed : Fetch (Option (List ZipEntry))
  unpacked : Fetch (Option (List CaseRecord))
deriving DecidableEq, Repr

/-- Model of `get_cases_metadata(s3_client, bucket, volume)`: try the packed key
`{reporter_slug}/{volume_folder}.zip` first; inside a readable archive,
parse the first entry (archive order) whose name ends with
`CasesMetadata.json`, and treat a missing entry as absent; only on
`NoSuchKey` fall back to the unpacked key
`{reporter_slug}/{volume_folder}/CasesMetadata.json`; every other storage
or parse failure on either path is caught and yields `none`.  The first
component is the ordered list of keys fetched. -/
def get_cases_metadata (env : S3Env) (vol : Volume) :
    List String × Option (List CaseRecord) :=
  match env.packed with
  | Fetch.noSuchKey =>
    match env.unpacked with
    | Fetch.ok (some metadata) => ([zipKey vol, unzippedKey vol], some metadata)
    | _ => ([zipKey vol, unzippedKey vol], none)
  | Fetch.err => ([zipKey vol], none)
  | Fetch.ok none => ([zipKey vol], none)
  | Fetch.ok (some entries) =>
    match entries.find? (fun en => pyEndsWith en.name "CasesMetadata.json") with
    | some en => ([zipKey vol], en.parse)
    | none => ([zipKey vol], none)

/-! ## get_volumes_to_process -/

/-- Model of `get_volumes_to_process(reporter, volume, publication_year, ...)`,
given the decoded volumes catalog (`json.loads(get_volumes_metadata(...))`).
The guard mirrors `if volume and reporter is None`; each filter is applied
only when its selector is truthy.  The year selector is modelled as the
already-coerced `int(publication_year)` of a truthy (non-empty) argument;
a record without a `publication_year` field (`none`) never equals the
given integer. -/
def get_volumes_to_process (catalog : List Volume) (reporter volume : Option String)
    (publication_year : Option Int) : List Volume :=
  if pyTruthy volume && reporter.isNone then []
  else
    let m1 := if pyTruthy reporter then
        catalog.filter (fun v => some v.reporter_slug == reporter)
      else catalog
    let m2 := if pyTruthy volume then
        m1.filter (fun v => some v.volume_folder == volume)
      else m1
    if publication_year.isSome then
      m2.filter (fun v => v.publication_year == publication_year)
    else m2

/-- Formalisation of the spec's filter condition (spec §4.1, claim C6): a
catalog record matches when it satisfies the conjunction of the given
non-empty filters — reporter equality, volume equality, publication-year
equality — with an absent year never matching a given year filter.
Stated independently of the code, for comparison with
`get_volumes_to_process`. -/
def specMatches (reporter volume : Option String) (publication_year : Option Int)
    (v : Volume) : Bool :=
  (!pyTruthy reporter || some v.reporter_slug == reporter)
    && (!pyTruthy volume || some v.volume_folder == volume)
    && (!publication_year.isSome || v.publication_year == publication_year)

/-! ## Derived observations on traces -/

/-- Whether `process_volume` reaches the download stage for metadata `md`:
the metadata resolved, is non-empty, and not every record carries the
Fastcase tag. -/
def reachesDownload (md : Option (List CaseRecord)) : Bool :=
  match md with
  | none => false
  | some cases =>
    !cases.isEmpty && !(cases.all (fun c => c.provenance.source == "Fastcase"))

/-- Project a store-write event to its destination key. -/
def writeKey : Event π → Option String
  | Event.write k _ => some k
  | _ => none

/-- Project a temporary-file unlink event to the unlinked path. -/
def unlinkPath : Event π → Option π
  | Event.unlink p => some p
  | _ => none

/-- The events `upload_case_pdfs` performs for one single item,
independently of every other item: the store-write attempt with its
success or failure log, followed by the unlink of the item's temporary
file. -/
def uploadItemEvents (upRes : String → Except String Unit) (vol : Volume)
    (pr : String × π) : List (Event π) :=
  (match upRes (destKey vol pr.1) with
    | Except.ok _ =>
        [Event.write (destKey vol pr.1) true, Event.log (uploadedMsg vol pr.1)]
    | Except.error e =>
        [Event.write (destKey vol pr.1) false,
          Event.log (uploadErrMsg vol pr.1 e)])
    ++ [Event.unlink pr.2]

/-! ## Helper lemmas -/

theorem pyIndex_coe (n s : Nat) : pyIndex n (s : Int) = (s : Int) := by
  unfold pyIndex
  rw [if_neg (by omega)]

theorem getPage_coe (pages : List α) (s : Nat) (h : s < pages.length) :
    getPage pages (s : Int) = Except.ok (pages.get ⟨s, h⟩) := by
  unfold getPage
  rw [pyIndex_coe, if_pos (by omega), Int.toNat_natCast, List.get?_eq_get h]

theorem getPage_oob (pages : List α) (i : Int) (h : (pages.length : Int) ≤ i) :
    getPage pages i = Except.error "sequence index out of range" := by
  have hp : pyIndex pages.length i = i := by
    unfold pyIndex
    rw [if_neg (by omega)]
  unfold getPage
  rw [hp, if_pos (by omega), List.get?_eq_none.mpr (by omega)]

theorem mem_pyRange {s t i : Int} : i ∈ pyRange s t ↔ s ≤ i ∧ i < t := by
  unfold pyRange
  rw [List.mem_map]
  constructor
  · rintro ⟨k, hk, rfl⟩
    rw [List.mem_range] at hk
    omega
  · rintro ⟨h1, h2⟩
    exact ⟨(i - s).toNat, List.mem_range.mpr (by omega), by omega⟩

theorem mapE_error_of_mem (f : β → Except String γ) (l : List β) (x : β)
    (hx : x ∈ l) (e : String) (hfx : f x = Except.error e) :
    ∃ e', mapE f l = Except.error e' := by
  induction l with
  | nil => cases hx
  | cons a l ih =>
    rcases List.mem_cons.mp hx with rfl | hmem
    · exact ⟨e, by simp [mapE, hfx]⟩
    · unfold mapE
      cases hfa : f a with
      | error e'' => exact ⟨e'', rfl⟩
      | ok y =>
        obtain ⟨e', he'⟩ := ih hmem
        exact ⟨e', by simp [he']⟩

theorem mapE_getPage_range (pages : List α) (s len : Nat)
    (h : s + len ≤ pages.length) :
    mapE (getPage pages)
        ((List.range len).map (fun (k : Nat) => (s : Int) + (k : Int)))
      = Except.ok ((pages.drop s).take len) := by
  induction len generalizing s with
  | zero => simp [mapE]
  | succ len ih =>
    rw [List.range_succ_eq_map]
    rw [List.map_cons, List.map_map]
    have hfun : ((fun (k : Nat) => (s : Int) + (k : Int)) ∘ Nat.succ)
        = (fun (k : Nat) => ((s + 1 : Nat) : Int) + (k : Int)) := by
      funext k
      simp only [Function.comp_apply, Nat.succ_eq_add_one]
      push_cast
      ring
    rw [hfun]
    have hs : s < pages.length := by omega
    unfold mapE
    rw [show ((s : Int) + ((0 : Nat) : Int)) = ((s : Int)) by push_cast; ring]
    rw [getPage_coe pages s hs, ih (s + 1) (by omega)]
    rw [List.drop_eq_get_cons hs, List.take_succ_cons]

theorem buildDoc_ok (pages : List α) (c : CaseRecord)
    (h1 : 1 ≤ c.first_page_order)
    (h2 : c.last_page_order ≤ (pages.length : Int)) :
    buildDoc pages c = Except.ok (specPagesSlice pages c) := by
  obtain ⟨s, hs⟩ : ∃ s : Nat, c.first_page_order - 1 = (s : Int) :=
    ⟨(c.first_page_order - 1).toNat, by omega⟩
  unfold buildDoc pyRange specPagesSlice
  rw [hs, Int.toNat_natCast]
  rcases Nat.eq_zero_or_pos (c.last_page_order - (s : Int)).toNat with hlen | hlen
  · rw [hlen]
    simp [mapE]
  · have := mapE_getPage_range pages s (c.last_page_order - (s : Int)).toNat
      (by omega)
    exact this

theorem buildDoc_err (pages : List α) (c : CaseRecord)
    (h : ∃ i : Int, c.first_page_order - 1 ≤ i ∧ i < c.last_page_order ∧
      (pages.length : Int) ≤ i) :
    ∃ e, buildDoc pages c = Except.error e := by
  obtain ⟨i, h1, h2, h3⟩ := h
  exact mapE_error_of_mem (getPage pages) _ i (mem_pyRange.mpr ⟨h1, h2⟩) _
    (getPage_oob pages i h3)

theorem split_pdf_err (pages : List α) (cases : List CaseRecord)
    (c : CaseRecord) (hc : c ∈ cases) (hfc : c.provenance.source ≠ "Fastcase")
    (hbad : ∃ e, buildDoc pages c = Except.error e) :
    ∃ e, split_pdf pages cases = Except.error e := by
  induction cases with
  | nil => cases hc
  | cons a rest ih =>
    rcases List.mem_cons.mp hc with rfl | hmem
    · obtain ⟨e, he⟩ := hbad
      refine ⟨e, ?_⟩
      unfold split_pdf
      rw [if_pos (by simp [bne_iff_ne, hfc]), he]
    · obtain ⟨e', he'⟩ := ih hmem
      unfold split_pdf
      by_cases ha : a.provenance.source = "Fastcase"
      · rw [if_neg (by simp [bne_iff_ne, ha])]
        exact ⟨e', he'⟩
      · rw [if_pos (by simp [bne_iff_ne, ha])]
        cases hb : buildDoc pages a with
        | error e'' => exact ⟨e'', rfl⟩
        | ok doc => exact ⟨e', by rw [he']⟩

theorem upload_case_pdfs_no_temp_events (upRes : String → Except String Unit)
    (vol : Volume) (pairs : List (String × π)) :
    Event.createTemp ∉ upload_case_pdfs upRes vol pairs ∧
    Event.unlinkTemp ∉ upload_case_pdfs upRes vol pairs := by
  induction pairs with
  | nil => simp [upload_case_pdfs]
  | cons pr rest ih =>
    obtain ⟨name, path⟩ := pr
    unfold upload_case_pdfs
    cases upRes (destKey vol name) <;> simp_all

/-! ## Claim theorems -/

/-- C1: for a source PDF with enough pages, `split_pdf` returns exactly one
`(file_name, document)` pair per record whose provenance source is not
"Fastcase", in input record order, each document being the source pages
with 0-based indices `first_page_order - 1` up to but excluding
`last_page_order` in original order; Fastcase records produce no pair, and
when no record qualifies the result is the empty list, not an error. -/
theorem C1_split_nonfastcase_pairs (pages : List α) (cases : List CaseRecord)
    (h : ∀ c ∈ cases, c.provenance.source ≠ "Fastcase" →
      1 ≤ c.first_page_order ∧ c.last_page_order ≤ (pages.length : Int)) :
    split_pdf pages cases =
      Except.ok ((cases.filter (fun c => c.provenance.source != "Fastcase")).map
        (fun c => (c.file_name, specPagesSlice pages c))) := by
  induction cases with
  | nil => rfl
  | cons c rest ih =>
    have hrest := ih (fun c' hc' => h c' (List.mem_cons_of_mem _ hc'))
    unfold split_pdf
    by_cases hc : c.provenance.source = "Fastcase"
    · rw [if_neg (by simp [bne_iff_ne, hc])]
      rw [hrest]
      simp [List.filter_cons, hc]
    · rw [if_pos (by simp [bne_iff_ne, hc])]
      obtain ⟨h1, h2⟩ := h c (List.mem_cons_self c rest) hc
      rw [buildDoc_ok pages c h1 h2, hrest]
      simp [List.filter_cons, hc, bne_iff_ne]

/-- Witness for C1 at a concrete input: three source pages, one qualifying
record covering pages 1–2 and one Fastcase record, yielding exactly one
pair with the first two pages. -/
theorem C1_witness :
    split_pdf [10, 20, 30]
        [⟨"a", 1, 2, ⟨"Harvard"⟩⟩, ⟨"b", 1, 1, ⟨"Fastcase"⟩⟩]
      = Except.ok [("a", [10, 20])] := by
  have h := C1_split_nonfastcase_pairs [10, 20, 30]
    [⟨"a", 1, 2, ⟨"Harvard"⟩⟩, ⟨"b", 1, 1, ⟨"Fastcase"⟩⟩] (by decide)
  rw [h]
  rfl

/-- Counterexample to C2 as stated: with `first_page_order = 3` and
`last_page_order = 5` the code iterates `range(2, 5)`, so the produced
document holds the pages with 0-based indices 2, 3 and 4 — three pages
(1-based pages 3, 4 and 5), not the two pages the claim asserts. -/
theorem C2_counterexample :
    split_pdf [10, 20, 30, 40, 50] [⟨"case1", 3, 5, ⟨"Harvard"⟩⟩]
        = Except.ok [("case1", [30, 40, 50])]
      ∧ split_pdf [10, 20, 30, 40, 50] [⟨"case1", 3, 5, ⟨"Harvard"⟩⟩]
        ≠ Except.ok [("case1", [30, 40])] := by
  refine ⟨rfl, fun hcon => ?_⟩
  rw [show split_pdf [10, 20, 30, 40, 50] [⟨"case1", 3, 5, ⟨"Harvard"⟩⟩]
      = Except.ok [("case1", [30, 40, 50])] from rfl] at hcon
  injection hcon with h1
  exact absurd h1 (by decide)

/-- C2 as amended: for a source PDF with at least 5 pages and a single
non-excluded record with `first_page_order = 3` and `last_page_order = 5`,
the produced case PDF contains exactly 3 pages, namely the source's
0-based pages 2, 3 and 4 (1-based pages 3, 4 and 5), in original order. -/
theorem C2_amended_split_three_pages (pages : List α) (c : CaseRecord)
    (h5 : 5 ≤ pages.length) (hf : c.first_page_order = 3)
    (hl : c.last_page_order = 5) (hp : c.provenance.source ≠ "Fastcase") :
    split_pdf pages [c] =
      Except.ok [(c.file_name,
        [pages.get ⟨2, by omega⟩, pages.get ⟨3, by omega⟩,
          pages.get ⟨4, by omega⟩])] := by
  have hone : split_pdf pages [c]
      = Except.ok [(c.file_name, specPagesSlice pages c)] := by
    unfold split_pdf
    rw [if_pos (by simp [bne_iff_ne, hp])]
    rw [buildDoc_ok pages c (by omega) (by omega)]
    rfl
  rw [hone]
  unfold specPagesSlice
  rw [hf, hl]
  rw [show ((3 : Int) - 1).toNat = 2 from rfl,
    show ((5 : Int) - ((3 : Int) - 1)).toNat = 3 from rfl]
  rw [List.drop_eq_get_cons (show 2 < pages.length by omega), List.take_succ_cons]
  rw [List.drop_eq_get_cons (show 3 < pages.length by omega), List.take_succ_cons]
  rw [List.drop_eq_get_cons (show 4 < pages.length by omega), List.take_succ_cons]
  rw [List.take_zero]

/-- Witness for the amended C2 at a concrete input: five pages, the single
record `first_page_order = 3`, `last_page_order = 5` yields the pages with
0-based indices 2, 3 and 4. -/
theorem C2_witness :
    split_pdf [11, 22, 33, 44, 55] [⟨"case1", 3, 5, ⟨"Harvard"⟩⟩]
      = Except.ok [("case1", [33, 44, 55])] := by
  have h := C2_amended_split_three_pages [11, 22, 33, 44, 55]
    ⟨"case1", 3, 5, ⟨"Harvard"⟩⟩ (by decide) rfl rfl (by decide)
  rw [h]
  rfl

/-- C9: if some non-excluded record references a 0-based page index at or
beyond the source page count (an index in its iterated range
`[first_page_order - 1, last_page_order)`), `split_pdf` raises — the
`IndexError` is not caught inside `split_pdf` — and the error propagates
to the Volume Processor boundary, where `process_volume` converts it into
the error-status return for that volume. -/
theorem C9_split_raises_out_of_range (pages : List α) (cases : List CaseRecord)
    (vol : Volume) (upRes : String → Except String Unit)
    (h : ∃ c ∈ cases, c.provenance.source ≠ "Fastcase" ∧
      ∃ i : Int, c.first_page_order - 1 ≤ i ∧ i < c.last_page_order ∧
        (pages.length : Int) ≤ i) :
    ∃ e, split_pdf pages cases = Except.error e ∧
      (process_volume vol (some cases) (Except.ok pages) upRes).2
        = Except.ok (some (procErrMsg vol e)) := by
  obtain ⟨c, hc, hfc, i, h1, h2, h3⟩ := h
  obtain ⟨e, he⟩ := split_pdf_err pages cases c hc hfc
    (buildDoc_err pages c ⟨i, h1, h2, h3⟩)
  refine ⟨e, he, ?_⟩
  have hne : cases.isEmpty = false := by
    cases cases with
    | nil => cases hc
    | cons a l => rfl
  have hall : (cases.all (fun c' => c'.provenance.source == "Fastcase")) = false := by
    rw [Bool.eq_false_iff]
    intro hT
    exact hfc (beq_iff_eq.mp (List.all_eq_true.mp hT c hc))
  simp [process_volume, hne, hall, download_pdf, he]

/-- Witness for C9 at a concrete input: a single-page source and a record
whose range reaches 0-based index 1 makes `split_pdf` raise, and
`process_volume` reports the error status for that volume. -/
theorem C9_witness :
    split_pdf [(10 : Nat)] [⟨"a", 1, 2, ⟨"Harvard"⟩⟩]
        = Except.error "sequence index out of range"
      ∧ (process_volume ⟨"r", "v", none⟩ (some [⟨"a", 1, 2, ⟨"Harvard"⟩⟩])
          (Except.ok [(10 : Nat)]) (fun _ => Except.ok ())).2
        = Except.ok (some (procErrMsg ⟨"r", "v", none⟩
            "sequence index out of range")) := by
  obtain ⟨e, he, hp⟩ := C9_split_raises_out_of_range [(10 : Nat)]
    [⟨"a", 1, 2, ⟨"Harvard"⟩⟩] ⟨"r", "v", none⟩ (fun _ => Except.ok ())
    ⟨⟨"a", 1, 2, ⟨"Harvard"⟩⟩, List.mem_cons_self _ _, by decide,
      1, by decide, by decide, by decide⟩
  have hconc : split_pdf [(10 : Nat)] [⟨"a", 1, 2, ⟨"Harvard"⟩⟩]
      = Except.error "sequence index out of range" := rfl
  rw [hconc] at he
  injection he with he'
  rw [← he'] at hp
  exact ⟨hconc, hp⟩

/-- Counterexample to C3 as stated: a download failure is not caught
inside `process_volume` — the call to `download_pdf` sits before the
`try` block, so the re-raised exception propagates to the caller instead
of being converted into an error-status return. -/
theorem C3_counterexample :
    (process_volume ⟨"r", "v", none⟩
        (some [⟨"a", 1, 1, ⟨"Harvard"⟩⟩])
        (Except.error "connection reset" : Except String (List Nat))
        (fun _ => Except.ok ())).2
      = Except.error "connection reset" := rfl

/-- C3 as amended: `process_volume` raises exactly when it reaches the
download stage and the download fails; every split (or upload) failure is
caught inside `process_volume` and converted into an error-status return,
but a download exception propagates to the caller (the orchestrator, which
catches it per future). -/
theorem C3_amended_raises_iff_download_fails (vol : Volume)
    (md : Option (List CaseRecord)) (dl : Except String (List α))
    (upRes : String → Except String Unit) :
    exIsError (process_volume vol md dl upRes).2
      = (reachesDownload md && exIsError dl) := by
  cases md with
  | none => simp [process_volume, reachesDownload, exIsError]
  | some cases =>
    unfold process_volume reachesDownload
    cases hne : cases.isEmpty with
    | true => simp [hne, exIsError]
    | false =>
      cases hall : cases.all (fun c => c.provenance.source == "Fastcase") with
      | true => simp [hne, hall, exIsError]
      | false =>
        cases dl with
        | error e => simp [hne, hall, download_pdf, exIsError]
        | ok pages =>
          cases hs : split_pdf pages cases with
          | error e => simp [hne, hall, download_pdf, hs, exIsError]
          | ok case_pdfs => simp [hne, hall, download_pdf, hs, exIsError]

/-- Counterexample to C4 as stated: when the download fails, the
temporary file created for the volume PDF is never unlinked — the
`finally` that deletes it belongs to the later `try`, which is never
entered — even though the download stage was reached and the temporary
file was created. -/
theorem C4_counterexample :
    Event.createTemp ∈ (process_volume ⟨"r", "v", none⟩
        (some [⟨"a", 1, 1, ⟨"Harvard"⟩⟩])
        (Except.error "connection reset" : Except String (List Nat))
        (fun _ => Except.ok ())).1
      ∧ Event.unlinkTemp ∉ (process_volume ⟨"r", "v", none⟩
        (some [⟨"a", 1, 1, ⟨"Harvard"⟩⟩])
        (Except.error "connection reset" : Except String (List Nat))
        (fun _ => Except.ok ())).1 := by
  decide

/-- C4 as amended: the temporary volume-PDF file is created exactly when
the download stage is reached, and it is deleted exactly on those runs
where the download succeeds (split or upload may still succeed or fail);
when the download fails the temporary file is leaked. -/
theorem C4_amended_temp_file_lifecycle (vol : Volume)
    (md : Option (List CaseRecord)) (dl : Except String (List α))
    (upRes : String → Except String Unit) :
    (Event.createTemp ∈ (process_volume vol md dl upRes).1
        ↔ reachesDownload md = true)
      ∧ (Event.unlinkTemp ∈ (process_volume vol md dl upRes).1
        ↔ (reachesDownload md = true ∧ exIsError dl = false)) := by
  cases md with
  | none => simp [process_volume, reachesDownload]
  | some cases =>
    unfold process_volume reachesDownload
    cases hne : cases.isEmpty with
    | true => simp [hne]
    | false =>
      cases hall : cases.all (fun c => c.provenance.source == "Fastcase") with
      | true => simp [hne, hall]
      | false =>
        cases dl with
        | error e => simp [hne, hall, download_pdf, exIsError]
        | ok pages =>
          cases hs : split_pdf pages cases with
          | error e => simp [hne, hall, download_pdf, hs, exIsError]
          | ok case_pdfs =>
            have hup := upload_case_pdfs_no_temp_events upRes vol case_pdfs
            cases hlen : case_pdfs.length != 0 <;>
              simp [hne, hall, download_pdf, hs, hlen, exIsError, hup.1, hup.2]

/-- C7: for every non-empty metadata set in which every record's
provenance source is "Fastcase", `process_volume` performs no download and
no split — its trace holds no storage read, no temporary file creation,
no write and no unlink, only the skip log line — and it reports the skip
(logs it and returns the skip result). -/
theorem C7_all_fastcase_skips (vol : Volume) (cases : List CaseRecord)
    (dl : Except String (List α)) (upRes : String → Except String Unit)
    (hne : cases ≠ []) (hall : ∀ c ∈ cases, c.provenance.source = "Fastcase") :
    process_volume vol (some cases) dl upRes
      = ([Event.log (skipFastcaseMsg vol)], Except.ok none) := by
  have h1 : cases.isEmpty = false := by
    cases cases with
    | nil => exact absurd rfl hne
    | cons a l => rfl
  have h2 : cases.all (fun c => c.provenance.source == "Fastcase") = true :=
    List.all_eq_true.mpr (fun c hc => beq_iff_eq.mpr (hall c hc))
  simp [process_volume, h1, h2]

/-- Witness for C7 at a concrete input: a single all-Fastcase record makes
`process_volume` emit only the skip log line, with no download event. -/
theorem C7_witness :
    process_volume ⟨"r", "v", none⟩ (some [⟨"a", 1, 1, ⟨"Fastcase"⟩⟩])
        (Except.ok [(10 : Nat)]) (fun _ => Except.ok ())
      = ([Event.log (skipFastcaseMsg ⟨"r", "v", none⟩)], Except.ok none) :=
  C7_all_fastcase_skips ⟨"r", "v", none⟩ [⟨"a", 1, 1, ⟨"Fastcase"⟩⟩]
    (Except.ok [(10 : Nat)]) (fun _ => Except.ok ()) (by decide) (by decide)

/-- C10: a successfully resolved but empty metadata list takes exactly the
same path as absent metadata — `process_volume` logs the missing-metadata
skip and returns no summary status message (the Python `if not
cases_metadata` is falsy for both `None` and `[]`), with no download and
no split. -/
theorem C10_empty_metadata_like_absent (vol : Volume)
    (dl : Except String (List α)) (upRes : String → Except String Unit) :
    process_volume vol (some ([] : List CaseRecord)) dl upRes
        = ([Event.log (skipMissingMsg vol)], Except.ok none)
      ∧ process_volume vol (some ([] : List CaseRecord)) dl upRes
        = process_volume vol none dl upRes :=
  ⟨rfl, rfl⟩

/-- C8: the upload trace is the concatenation of per-item blocks — each
item is written to destination key
`{reporter}/{volume}/case-pdfs/{case_name}.pdf`, a store-write failure on
one item is caught (its block depends only on that item's own outcome, so
the remaining items are still attempted), and each item's temporary file
is unlinked inside its own block, before the next item's events.  The two
projections make this explicit: one write attempt per input pair, in
order, whatever the outcomes, and one unlink of each pair's temporary
file. -/
theorem C8_upload_per_item_isolation (upRes : String → Except String Unit)
    (vol : Volume) (pairs : List (String × π)) :
    upload_case_pdfs upRes vol pairs = pairs.flatMap (uploadItemEvents upRes vol)
      ∧ (upload_case_pdfs upRes vol pairs).filterMap writeKey
        = pairs.map (fun pr => destKey vol pr.1)
      ∧ (upload_case_pdfs upRes vol pairs).filterMap unlinkPath
        = pairs.map (fun pr => pr.2) := by
  induction pairs with
  | nil => exact ⟨rfl, rfl, rfl⟩
  | cons pr rest ih =>
    obtain ⟨name, path⟩ := pr
    obtain ⟨ih1, ih2, ih3⟩ := ih
    cases hr : upRes (destKey vol name) with
    | ok u =>
      refine ⟨?_, ?_, ?_⟩
      · simp [upload_case_pdfs, uploadItemEvents, hr, ih1]
      · simp [upload_case_pdfs, hr, writeKey, unlinkPath, ih2,
          List.filterMap_cons]
      · simp [upload_case_pdfs, hr, writeKey, unlinkPath, ih3,
          List.filterMap_cons]
    | error e =>
      refine ⟨?_, ?_, ?_⟩
      · simp [upload_case_pdfs, uploadItemEvents, hr, ih1]
      · simp [upload_case_pdfs, hr, writeKey, unlinkPath, ih2,
          List.filterMap_cons]
      · simp [upload_case_pdfs, hr, writeKey, unlinkPath, ih3,
          List.filterMap_cons]

theorem filter_filter_left (l : List β) (p q : β → Bool) :
    (l.filter p).filter q = l.filter (fun a => p a && q a) := by
  rw [List.filter_filter]
  exact List.filter_congr (fun a _ => by rw [Bool.and_comm])

theorem filter_if (c : Bool) (l : List β) (p : β → Bool) :
    (if c then l.filter p else l) = l.filter (fun a => !c || p a) := by
  cases c with
  | false => simp
  | true => simp

/-- Counterexample to C6 as stated: when a volume selector is given
without a reporter, `get_volumes_to_process` returns the empty list even
though the catalog holds a record satisfying every given filter, so the
result is not "exactly the catalog records satisfying the conjunction of
the given non-empty filters". -/
theorem C6_counterexample :
    get_volumes_to_process [⟨"r", "v1", none⟩] none (some "v1") none = []
      ∧ ([⟨"r", "v1", none⟩] : List Volume).filter (specMatches none (some "v1") none)
        = [⟨"r", "v1", none⟩] := ⟨rfl, rfl⟩

/-- C6 as amended: except in the misuse case — a truthy volume selector
with no reporter, which yields the empty list — `get_volumes_to_process`
returns exactly the catalog records satisfying the conjunction of the
given non-empty filters: reporter equality, volume equality, and
publication-year equality against the integer-coerced selector, with an
absent `publication_year` field never matching a given year filter. -/
theorem C6_amended_resolver_filters (catalog : List Volume)
    (reporter volume : Option String) (publication_year : Option Int) :
    get_volumes_to_process catalog reporter volume publication_year
      = if pyTruthy volume && reporter.isNone then []
        else catalog.filter (specMatches reporter volume publication_year) := by
  by_cases hg : (pyTruthy volume && reporter.isNone) = true
  · simp only [get_volumes_to_process, if_pos hg]
  · simp only [get_volumes_to_process, if_neg hg]
    rw [filter_if, filter_if, filter_if, filter_filter_left, filter_filter_left]
    exact List.filter_congr (fun v _ => by rw [specMatches, Bool.and_assoc])

/-- C5: the loader fetches the packed key `{reporter}/{volume}.zip` first
(it is always the first key fetched); it fetches the unpacked key
`{reporter}/{volume}/CasesMetadata.json` if and only if the packed object
does not exist (`NoSuchKey`); from an existing readable archive it parses
the first entry in archive order whose name ends with
`"CasesMetadata.json"` and returns absent when no entry matches, without
touching the fallback key; any other storage failure (`Fetch.err`), an
unreadable archive body, or a parse failure on either path yields absent
(`none`) rather than propagating. -/
theorem C5_metadata_loader_paths (env : S3Env) (vol : Volume) :
    (get_cases_metadata env vol).1.head? = some (zipKey vol)
      ∧ ((get_cases_metadata env vol).1 = [zipKey vol, unzippedKey vol]
        ↔ env.packed = Fetch.noSuchKey)
      ∧ (env.packed ≠ Fetch.noSuchKey →
        (get_cases_metadata env vol).1 = [zipKey vol])
      ∧ (∀ entries, env.packed = Fetch.ok (some entries) →
        (get_cases_metadata env vol).2
          = (entries.find? (fun en => pyEndsWith en.name "CasesMetadata.json")).bind
              ZipEntry.parse)
      ∧ (env.packed = Fetch.err → (get_cases_metadata env vol).2 = none)
      ∧ (env.packed = Fetch.ok none → (get_cases_metadata env vol).2 = none)
      ∧ (env.packed = Fetch.noSuchKey →
        (get_cases_metadata env vol).2
          = match env.unpacked with
            | Fetch.ok (some metadata) => some metadata
            | _ => none) := by
  obtain ⟨packed, unpacked⟩ := env
  cases packed with
  | err =>
    refine ⟨rfl, by simp [get_cases_metadata], fun _ => rfl, ?_, fun _ => rfl,
      ?_, ?_⟩
    · intro entries h
      cases h
    · intro h
      cases h
    · intro h
      cases h
  | noSuchKey =>
    have hkeys : (get_cases_metadata ⟨Fetch.noSuchKey, unpacked⟩ vol).1
        = [zipKey vol, unzippedKey vol] := by
      cases unpacked with
      | noSuchKey => rfl
      | err => rfl
      | ok body => cases body with
        | none => rfl
        | some metadata => rfl
    refine ⟨by rw [hkeys]; rfl, by rw [hkeys]; simp, fun h => absurd rfl h,
      ?_, ?_, ?_, fun _ => ?_⟩
    · intro entries h
      cases h
    · intro h
      cases h
    · intro h
      cases h
    · cases unpacked with
      | noSuchKey => rfl
      | err => rfl
      | ok body => cases body with
        | none => rfl
        | some metadata => rfl
  | ok body =>
    cases body with
    | none =>
      refine ⟨rfl, by simp [get_cases_metadata], fun _ => rfl, ?_,
        ?_, fun _ => rfl, ?_⟩
      · intro entries h
        simp at h
      · intro h
        cases h
      · intro h
        cases h
    | some entries =>
      refine ⟨?_, ?_, fun _ => ?_, ?_, ?_, ?_, ?_⟩
      · cases hf : entries.find? (fun en => pyEndsWith en.name "CasesMetadata.json") <;>
          simp [get_cases_metadata, hf]
      · cases hf : entries.find? (fun en => pyEndsWith en.name "CasesMetadata.json") <;>
          simp [get_cases_metadata, hf]
      · cases hf : entries.find? (fun en => pyEndsWith en.name "CasesMetadata.json") <;>
          simp [get_cases_metadata, hf]
      · intro entries' h
        injection h with h'
        injection h' with h''
        subst h''
        cases hf : entries.find? (fun en => pyEndsWith en.name "CasesMetadata.json") <;>
          simp [get_cases_metadata, hf]
      · intro h
        cases h
      · intro h
        simp at h
      · intro h
        cases h

/-- Witness for C5 at a concrete input: a readable packed archive whose
second and third entries both match `CasesMetadata.json` — the first
matching entry (archiv order) wins — while the unpacked fallback would
error; only the zip key is fetched and the parsed metadata of the first
matching entry is returned. -/
theorem C5_witness :
    (get_cases_metadata
        ⟨Fetch.ok (some [⟨"v1/extra.txt", none⟩,
            ⟨"v1/CasesMetadata.json", some [⟨"a", 1, 2, ⟨"Harvard"⟩⟩]⟩,
            ⟨"other/CasesMetadata.json", some []⟩]),
          Fetch.err⟩ ⟨"r", "v1", none⟩).2
        = some [⟨"a", 1, 2, ⟨"Harvard"⟩⟩]
      ∧ (get_cases_metadata
        ⟨Fetch.ok (some [⟨"v1/extra.txt", none⟩,
            ⟨"v1/CasesMetadata.json", some [⟨"a", 1, 2, ⟨"Harvard"⟩⟩]⟩,
            ⟨"other/CasesMetadata.json", some []⟩]),
          Fetch.err⟩ ⟨"r", "v1", none⟩).1
        = [zipKey ⟨"r", "v1", none⟩] := by
  have h := C5_metadata_loader_paths
    ⟨Fetch.ok (some [⟨"v1/extra.txt", none⟩,
        ⟨"v1/CasesMetadata.json", some [⟨"a", 1, 2, ⟨"Harvard"⟩⟩]⟩,
        ⟨"other/CasesMetadata.json", some []⟩]),
      Fetch.err⟩ ⟨"r", "v1", none⟩
  have h4 := h.2.2.2.1 [⟨"v1/extra.txt", none⟩,
    ⟨"v1/CasesMetadata.json", some [⟨"a", 1, 2, ⟨"Harvard"⟩⟩]⟩,
    ⟨"other/CasesMetadata.json", some []⟩] rfl
  have h3 := h.2.2.1 (by simp)
  rw [h4, h3]
  exact ⟨rfl, rfl⟩
